import Mathlib

/-!
A shallow embedding of `src/main.cpp`: the `BoundedNumber<T, Min, Max>`
bounded numeric type, its two concepts `CanContainBounds` and
`SameNumericType`, the clamping assignment `set`, the accessor `value`,
and the literal suffix for the integral alias.

Modeling decisions, stated once:
* C++ arithmetic types are descriptors: an integral type carries its
  signedness and bit width; a floating-point type carries its finite range.
  Runtime values are exact rationals; an integral value is an integer in
  range, a floating-point value is any rational in the finite range
  (floating-point rounding/precision is not modeled).
* Integral conversions follow C++20 semantics: truncation toward zero for
  a fractional source, then reduction modulo 2^bits into the target range.
* A conversion to a floating-point type is exact inside the target's
  finite range and saturates at the range edges (such an out-of-range
  conversion is undefined behavior in C++).
* Comparisons between two typed operands model the C++ usual arithmetic
  conversions: integer promotion first, and for mixed signed/unsigned
  integral operands both are converted to the common unsigned type
  (wrapping negative values) whenever the unsigned operand's width is at
  least the signed one's. Comparisons involving a floating-point operand
  are modeled as exact rational comparisons; the rounding C++ performs
  when it converts the integral operand to the floating type is not
  modeled, so only the all-integral fragment of the comparison semantics
  is bit-faithful.
* `std::clamp(v, lo, hi)` is modeled by its exact definition
  `v < lo ? lo : (hi < v ? hi : v)`; C++ requires `lo <= hi`, and the model
  is total.
-/

namespace BNModel

/-- A C++ type: an integral type with signedness and bit width, a
floating-point type with its finite range, or a non-arithmetic type. -/
inductive CppType where
  | intTy (sgn : Bool) (bits : ℕ)
  | fpTy (lo hi : ℚ)
  | otherTy

open CppType

/-- the largest value of an integral type, as an integer. -/
def typeMaxZ (sgn : Bool) (bits : ℕ) : ℤ :=
  if sgn then 2 ^ (bits - 1) - 1 else 2 ^ bits - 1

/-- the lowest value of an integral type, as an integer. -/
def typeLowestZ (sgn : Bool) (bits : ℕ) : ℤ :=
  if sgn then -(2 ^ (bits - 1)) else 0

/-- std::numeric_limits of T, member max(). -/
def typeMax : CppType → ℚ
  | intTy s b => (typeMaxZ s b : ℚ)
  | fpTy _ hi => hi
  | otherTy => 0

/-- std::numeric_limits of T, member lowest(). -/
def typeLowest : CppType → ℚ
  | intTy s b => (typeLowestZ s b : ℚ)
  | fpTy lo _ => lo
  | otherTy => 0

/-- std::is_arithmetic_v of T. -/
def isArith : CppType → Bool
  | otherTy => false
  | _ => true

/-- the std::integral concept. -/
def isIntegral : CppType → Bool
  | intTy _ _ => true
  | _ => false

/-- the std::floating_point concept. -/
def isFloating : CppType → Bool
  | fpTy _ _ => true
  | _ => false

/-- Truncation of a rational toward zero, as in a C++ floating-to-integral
conversion (the quotient of numerator by denominator, rounded toward
zero). -/
def ratTrunc (q : ℚ) : ℤ := q.num.tdiv (q.den : ℤ)

/-- Reduction of an integer modulo 2^bits into the range of an integral
type (C++20 integral-conversion semantics). -/
def intWrap (sgn : Bool) (bits : ℕ) (n : ℤ) : ℤ :=
  if sgn then (n + 2 ^ (bits - 1)) % 2 ^ bits - 2 ^ (bits - 1)
  else n % 2 ^ bits

/-- static_cast of a value to type T. -/
def cppCast : CppType → ℚ → ℚ
  | intTy s b, q => (intWrap s b (ratTrunc q) : ℚ)
  | fpTy lo hi, q => max lo (min hi q)
  | otherTy, _ => 0

/-- A compile-time constant together with its C++ type, as an `auto`
template parameter such as `Min` or `Max`. -/
structure TypedVal where
  ty : CppType
  val : ℚ

/-- Integer promotion: integral types narrower than int promote to int. -/
def promote : CppType → CppType
  | intTy s b => if b < 32 then intTy true 32 else intTy s b
  | t => t

/-- The C++ comparison of two already-promoted operands. -/
def cppLEcore (A : CppType) (a : ℚ) (B : CppType) (b : ℚ) : Bool :=
  match A, B with
  | intTy sa wa, intTy sb wb =>
    if sa = sb then decide (a ≤ b)
    else
      if (if sa then wa else wb) ≤ (if sa then wb else wa) then
        decide (intWrap false (if sa then wb else wa) (ratTrunc a) ≤
          intWrap false (if sa then wb else wa) (ratTrunc b))
      else decide (a ≤ b)
  | _, _ => decide (a ≤ b)

/-- The C++ comparison `a <= b` between typed operands, after the usual
arithmetic conversions: promote both; for mixed signed/unsigned integral
operands, when the unsigned operand's width is at least the signed one's,
convert both to that unsigned type (wrapping negative values), otherwise
the wider signed type represents both exactly. A comparison involving a
floating-point operand is modeled as an exact rational comparison; in C++
the integral operand is converted to the floating type with rounding,
which this embedding does not model, so such comparisons are idealized
and only the all-integral case is bit-faithful. -/
def cppLE (A : CppType) (a : ℚ) (B : CppType) (b : ℚ) : Bool :=
  cppLEcore (promote A) a (promote B) b

/-- The concept CanContainBounds of T, Min, Max (src/main.cpp lines 5-9):
T is arithmetic, its max() is at least Max, its lowest() is at most Min,
and Min is at most Max, each comparison evaluated with the C++ usual
arithmetic conversions. -/
def CanContainBounds (T : CppType) (mn mx : TypedVal) : Bool :=
  isArith T && cppLE mx.ty mx.val T (typeMax T) &&
    cppLE T (typeLowest T) mn.ty mn.val && cppLE mn.ty mn.val mx.ty mx.val

/-- The concept SameNumericType of T, U (src/main.cpp lines 11-14). -/
def SameNumericType (T U : CppType) : Bool :=
  (isIntegral T && isIntegral U) || (isFloating T && isFloating U)

/-- The requires-clause of BoundedNumber::set (src/main.cpp lines 33-35). -/
def setAllowed (T U : CppType) : Bool :=
  SameNumericType T U || (isFloating T && isIntegral U)

/-- std::clamp(v, lo, hi), by its definition. -/
def clampC (v lo hi : ℚ) : ℚ := if v < lo then lo else if hi < v then hi else v

/-- The body of BoundedNumber of T, Min, Max, member set(U v)
(src/main.cpp lines 36-45): clamp in U's domain when U can contain the
bounds, otherwise convert to T first and clamp in T's domain. -/
def setVal (T : CppType) (mn mx : TypedVal) (U : CppType) (v : ℚ) : ℚ :=
  if CanContainBounds U mn mx then
    cppCast T (clampC v (cppCast U mn.val) (cppCast U mx.val))
  else
    clampC (cppCast T v) (cppCast T mn.val) (cppCast T mx.val)

/-- class BoundedNumber of T, Min, Max: the single stored field m_value. -/
structure BoundedNumber (T : CppType) (mn mx : TypedVal) where
  m_value : ℚ

/-- BoundedNumber's constructor (src/main.cpp line 25): delegates to set. -/
def BoundedNumber.make (T : CppType) (mn mx : TypedVal) (U : CppType) (v : ℚ) :
    BoundedNumber T mn mx := ⟨setVal T mn mx U v⟩

/-- BoundedNumber::set as a state transformer on an instance. -/
def BoundedNumber.setB {T : CppType} {mn mx : TypedVal}
    (_ : BoundedNumber T mn mx) (U : CppType) (v : ℚ) : BoundedNumber T mn mx :=
  ⟨setVal T mn mx U v⟩

/-- BoundedNumber::value() (src/main.cpp line 47). -/
def BoundedNumber.value {T : CppType} {mn mx : TypedVal}
    (b : BoundedNumber T mn mx) : ℚ := b.m_value

/-- int under LP64. -/
def cInt : CppType := intTy true 32

/-- unsigned int under LP64. -/
def cUInt : CppType := intTy false 32

/-- long long under LP64. -/
def cLongLong : CppType := intTy true 64

/-- unsigned long long under LP64. -/
def cULongLong : CppType := intTy false 64

/-- largest finite IEEE binary64 double, as an integer; the literal is
(2 ^ 53 - 1) * 2 ^ 971, see dblMaxZ_eq. -/
def dblMaxZ : ℤ :=
  179769313486231570814527423731704356798070567525844996598917476803157260780028538760589558632766878171540458953514382464234321326889464182768467546703537516986049910576551282076245490090389328944075868508455133942304583236903222948165808559332123348274797826204144723168738177180919299881250404026184124858368

/-- largest finite x87 80-bit long double, as an integer; the literal is
(2 ^ 64 - 1) * 2 ^ 16320, see ldblMaxZ_eq. -/
def ldblMaxZ : ℤ :=
  1189731495357231765021263853030970205169063322294624200440323733891737005522970722616410290336528882853545697807495577314427443153670288434198125573853743678673593200706973263201915918282961524365529510646791086614311790632169778838896134786560600399148753433211454911160088679845154866512852340149773037600009125479393966223151383622417838542743917838138717805889487540575168226347659235576974805113725649020884855222494791399377585026011773549180099796226026859508558883608159846900235645132346594476384939859276456284579661772930407806609229102715046085388087959327781622986827547830768080040150694942303411728957777100335714010559775242124057347007386251660110828379119623008469277200965153500208474470792443848545912886723000619085126472111951361467527633519562927597957250278002980795904193139603021470997035276467445530922022679656280991498232083329641241038509239184734786121921697210543484287048353408113042573002216421348917347174234800714880751002064390517234247656004721768096486107994943415703476320643558624207443504424380566136017608837478165389027809576975977286860071487028287955567141404632615832623602762896316173978484254486860609948270867968048078702511858930838546584223040908805996294594586201903766048446790926002225410530775901065760671347200125846406957030257138960983757998926954553052368560758683179223113639519468850880771872104705203957587480013143131444254943919940175753169339392366881856189129931729104252921236835159922322050998001677102784035360140829296398115122877768135706045789343535451696539561254048846447169786893211671087229088082778350518228857646062218739702851655083720992349483334435228984751232753726636066213902281264706234075352071724058665079518217303463782631353393706774901950197841690441824738063162828586857741432581165364040218402724913393320949219498422442730427019873044536620350262386957804682003601447291997123095530057206141866974852846856186514832715974481203121946751686379343096189615107330065552421485195201762858595091051839472502863871632494167613804996319791441870254302706758495192008837915169401581740046711477877201459644461175204059453504764721807975761111720846273639279600339670470037613374509553184150073796412605047923251661354841291884211340823015473304754067072818763503617332908005951896325207071673904547777129682265206225651439919376804400292380903112437912614776255964694221981375146967079446870358004392507659451618379811859392049544036114915310782251072691486979809240946772142727012404377187409216756613634938900451232351668146089322400697993176017805338191849981933008410985993938760292601390911414526003720284872132411955424282101831204216104467404621635336900583664606591156298764745525068145003932941404131495400677602951005962253022823003631473824681059648442441324864573137437595096416168048024129351876204668135636877532814675538798871771836512893947195335061885003267607354388673368002074387849657014576090349857571243045102038730494854256702479339322809110526041538528994849203991091946129912491633289917998094380337879522093131466946149705939664152375949285890960489916121944989986384837022486672249148924678410206183364627416969576307632480235587975245253737035433882960862753427740016333434055083537048507374544819754722228975281083020898682633020285259923084168054539687911418297629988964576482765287504562854924265165217750799516259669229114977788962356670956627138482018191348321687995863652637620978285070099337294396784639879024914514222742527006363942327998483976739987154418554201562244154926653014515504685489258620276085761837129763358761215382565129633538141663949516556000264159186554850057052611431952919918807954522394649627635630178580896692226406235382898535867595990647008385687123810329591926494846250768992258419305480763620215089022149220528069842018350840586938493815498909445461977893029113576516775406232278298314033473276603952231603422824717528181818844304880921321933550869873395861276073670866652375555675803171490108477320096424318780070008797346032906278943553743564448851907191616455141155761939399690767415156402826543664026760095087523945507341556135867933066031744720924446513532366647649735400851967040771103640538150073486891798364049570606189535005089840913826869535090066783324472578712196604415284924840041850932811908963634175739897166596000759487800619164094854338758520657116541072260996288150123144377944008749301944744330784388995701842710004808305012177123560622895076269042856800047718893158089358515593863176652948089031267747029662545110861548958395087796755464137944895960527975209874813839762578592105756284401759349324162148339565350189196811389091843795734703269406342890087805846940352453479398080674273236297887100867175802531561302356064878709259865288416350972529537091114317204887747405539054009425375424119317944175137064689643861517718849867010341532542385911089624710885385808688837777258648564145934262121086647588489260031762345960769508849149662444156604419552086811989770240

/-- largest finite IEEE binary64 double. -/
def dblMax : ℚ := (dblMaxZ : ℚ)

/-- largest finite x87 80-bit long double. -/
def ldblMax : ℚ := (ldblMaxZ : ℚ)

/-- the double type. -/
def cDouble : CppType := fpTy (-dblMax) dblMax

/-- the long double type. -/
def cLongDouble : CppType := fpTy (-ldblMax) ldblMax

/-- lower bound of dBn = BoundedNumber of int, 0, 1000 (src/main.cpp:56). -/
def dbnLo : TypedVal := ⟨cInt, 0⟩

/-- upper bound of dBn. -/
def dbnHi : TypedVal := ⟨cInt, 1000⟩

/-- lower bound of dB = BoundedNumber of double, -100, 0 (src/main.cpp:55). -/
def dbLo : TypedVal := ⟨cInt, -100⟩

/-- upper bound of dB. -/
def dbHi : TypedVal := ⟨cInt, 0⟩

/-- the literal suffix for dBn (src/main.cpp lines 58-60): constructs the
integral alias from an unsigned long long literal. -/
def literalDbn (n : ℕ) : BoundedNumber cInt dbnLo dbnHi :=
  BoundedNumber.make cInt dbnLo dbnHi cULongLong (n : ℚ)

/-- q is a value of C++ type T: an integral value is an integer in T's
range, a floating value is a rational in T's finite range. -/
def isValueB (T : CppType) (q : ℚ) : Bool :=
  isArith T && (!isIntegral T || decide (q.den = 1)) &&
    decide (typeLowest T ≤ q) && decide (q ≤ typeMax T)

/-- Well-formedness of a type descriptor: integral widths are positive and
floating ranges are ordered. Every modeled C++ type satisfies this. -/
def wfB : CppType → Bool
  | intTy _ b => decide (0 < b)
  | fpTy lo hi => decide (lo ≤ hi)
  | otherTy => true

/-- Modelled from the spec: the representability conditions of the spec
read with exact mathematical comparisons, for comparison against the
source's CanContainBounds. -/
def canRepresentBoundsSpec (T : CppType) (mn mx : TypedVal) : Bool :=
  isArith T && decide (mx.val ≤ typeMax T) &&
    decide (typeLowest T ≤ mn.val) && decide (mn.val ≤ mx.val)

/-- The type is a signed integral type. A comparison between two signed
integral operands goes through value-preserving conversions in C++
(integer promotion, then conversion to the wider signed type), with no
unsigned wrapping and no floating-point rounding, so on this fragment the
modeled comparison is bit-faithful and exact. -/
def signedIntB : CppType → Bool
  | intTy s _ => s
  | _ => false

/-- lower bound -100.5 of the fractional-bounds instantiation
BoundedNumber of double, -100.5, -0.5. -/
def fracLo : TypedVal := ⟨cDouble, Rat.mk' (-201) 2 (by decide) (by decide)⟩

/-- upper bound -0.5 of the fractional-bounds instantiation. -/
def fracHi : TypedVal := ⟨cDouble, Rat.mk' (-1) 2 (by decide) (by decide)⟩

/-- the fractional value -10.5, the in-range double input of the source's
Example 5. -/
def fracIn : ℚ := Rat.mk' (-21) 2 (by decide) (by decide)

/-! ### Basic lemmas about the embedding -/

lemma ratTrunc_eq_floor {q : ℚ} (h : 0 ≤ q) : ratTrunc q = ⌊q⌋ := by
  rw [Rat.floor_def, ratTrunc]
  exact Int.tdiv_eq_ediv (Rat.num_nonneg.mpr h) (Int.natCast_nonneg _)

lemma ratTrunc_eq_ceil {q : ℚ} (h : q ≤ 0) : ratTrunc q = ⌈q⌉ := by
  have h1 : ⌈q⌉ = -⌊-q⌋ := by rw [Int.floor_neg]; ring
  have h0 : (0:ℤ) ≤ -q.num := by
    have : q.num ≤ 0 := Rat.num_nonpos.mpr h
    omega
  have h2 : (-q.num).tdiv ((q.den : ℤ)) = (-q.num) / (q.den : ℤ) :=
    Int.tdiv_eq_ediv h0 (Int.natCast_nonneg _)
  rw [h1, Rat.floor_def, Rat.num_neg_eq_neg_num, Rat.den_neg_eq_den, ← h2,
    Int.neg_tdiv, neg_neg, ratTrunc]

lemma ratTrunc_intCast (n : ℤ) : ratTrunc (n : ℚ) = n := by simp [ratTrunc]

lemma den_one_eq_num {q : ℚ} (h : q.den = 1) : (q.num : ℚ) = q := by
  have h2 := q.num_div_den
  rw [h] at h2
  simpa using h2

lemma ratTrunc_den_one {q : ℚ} (h : q.den = 1) : ratTrunc q = q.num := by
  rw [ratTrunc, h]; simp

lemma ratTrunc_mono {p q : ℚ} (h : p ≤ q) : ratTrunc p ≤ ratTrunc q := by
  rcases le_or_lt 0 p with hp | hp
  · rw [ratTrunc_eq_floor hp, ratTrunc_eq_floor (le_trans hp h)]
    exact Int.floor_mono h
  · rcases le_or_lt 0 q with hq | hq
    · rw [ratTrunc_eq_ceil hp.le, ratTrunc_eq_floor hq]
      exact le_trans (Int.ceil_le.mpr (by exact_mod_cast hp.le))
        (Int.floor_nonneg.mpr hq)
    · rw [ratTrunc_eq_ceil hp.le, ratTrunc_eq_ceil hq.le]
      exact Int.ceil_mono h

lemma two_pow_le_two_mul (b : ℕ) : (2:ℤ) ^ b ≤ 2 * 2 ^ (b - 1) := by
  cases b with
  | zero => norm_num
  | succ k => rw [Nat.succ_sub_one, pow_succ]; exact le_of_eq (mul_comm _ _)

lemma intWrap_bounds (s : Bool) (b : ℕ) (n : ℤ) :
    typeLowestZ s b ≤ intWrap s b n ∧ intWrap s b n ≤ typeMaxZ s b := by
  have hpos : (0:ℤ) < 2 ^ b := pow_pos (by norm_num) b
  cases s with
  | false =>
    simp only [intWrap, typeLowestZ, typeMaxZ, if_false, Bool.false_eq_true]
    exact ⟨Int.emod_nonneg n (ne_of_gt hpos),
      by linarith [Int.emod_lt_of_pos n hpos]⟩
  | true =>
    simp only [intWrap, typeLowestZ, typeMaxZ, if_true]
    constructor
    · linarith [Int.emod_nonneg (n + 2 ^ (b - 1)) (ne_of_gt hpos)]
    · linarith [Int.emod_lt_of_pos (n + 2 ^ (b - 1)) hpos, two_pow_le_two_mul b]

lemma intWrap_eq_self (s : Bool) (b : ℕ) (n : ℤ) (hb : 0 < b)
    (h1 : typeLowestZ s b ≤ n) (h2 : n ≤ typeMaxZ s b) : intWrap s b n = n := by
  have h2b : (2:ℤ) ^ b = 2 * 2 ^ (b - 1) := by
    cases b with
    | zero => exact absurd hb (by norm_num)
    | succ k => rw [Nat.succ_sub_one, pow_succ, mul_comm]
  cases s with
  | false =>
    simp only [typeLowestZ, typeMaxZ, if_false, Bool.false_eq_true] at h1 h2
    simp only [intWrap, if_false, Bool.false_eq_true]
    exact Int.emod_eq_of_lt h1 (by linarith)
  | true =>
    simp only [typeLowestZ, typeMaxZ, if_true] at h1 h2
    simp only [intWrap, if_true]
    have e : (n + 2 ^ (b - 1)) % 2 ^ b = n + 2 ^ (b - 1) :=
      Int.emod_eq_of_lt (by linarith) (by linarith)
    rw [e]; ring

lemma isValue_int (s : Bool) (b : ℕ) (q : ℚ) (hd : q.den = 1)
    (hl : typeLowest (intTy s b) ≤ q) (hu : q ≤ typeMax (intTy s b)) :
    isValueB (intTy s b) q = true := by
  simp only [isValueB, isArith, isIntegral, Bool.true_and, Bool.not_true,
    Bool.false_or, Bool.and_eq_true, decide_eq_true_eq]
  exact ⟨⟨hd, hl⟩, hu⟩

lemma isValue_bounds {T : CppType} {q : ℚ} (h : isValueB T q = true) :
    typeLowest T ≤ q ∧ q ≤ typeMax T := by
  simp only [isValueB, Bool.and_eq_true, decide_eq_true_eq] at h
  exact ⟨h.1.2, h.2⟩

lemma isValue_den {T : CppType} {q : ℚ} (h : isValueB T q = true)
    (hT : isIntegral T = true) : q.den = 1 := by
  simp only [isValueB, hT, Bool.not_true, Bool.false_or, Bool.and_eq_true,
    decide_eq_true_eq] at h
  exact h.1.1.2

lemma typeLowest_int (s : Bool) (b : ℕ) :
    typeLowest (intTy s b) = ((typeLowestZ s b : ℤ) : ℚ) := rfl

lemma typeMax_int (s : Bool) (b : ℕ) :
    typeMax (intTy s b) = ((typeMaxZ s b : ℤ) : ℚ) := rfl

lemma typeLowest_fp (lo hi : ℚ) : typeLowest (fpTy lo hi) = lo := rfl

lemma typeMax_fp (lo hi : ℚ) : typeMax (fpTy lo hi) = hi := rfl

lemma cast_int_eq_self (s : Bool) (b : ℕ) (q : ℚ) (hb : 0 < b) (hd : q.den = 1)
    (hl : typeLowest (intTy s b) ≤ q) (hu : q ≤ typeMax (intTy s b)) :
    cppCast (intTy s b) q = q := by
  have hq : (q.num : ℚ) = q := den_one_eq_num hd
  have hl2 : typeLowestZ s b ≤ q.num := by
    rw [typeLowest_int, ← hq] at hl
    exact_mod_cast hl
  have hu2 : q.num ≤ typeMaxZ s b := by
    rw [typeMax_int, ← hq] at hu
    exact_mod_cast hu
  show ((intWrap s b (ratTrunc q) : ℤ) : ℚ) = q
  rw [ratTrunc_den_one hd, intWrap_eq_self s b q.num hb hl2 hu2, hq]

lemma cast_fixed {T : CppType} {q : ℚ} (hw : wfB T = true)
    (h : isValueB T q = true) : cppCast T q = q := by
  cases T with
  | intTy s b =>
    have hb : 0 < b := by simpa [wfB] using hw
    have hd : q.den = 1 := isValue_den h (by simp [isIntegral])
    have hbd := isValue_bounds h
    exact cast_int_eq_self s b q hb hd hbd.1 hbd.2
  | fpTy lo hi =>
    have hbd := isValue_bounds h
    have hb1 : lo ≤ q := hbd.1
    have hb2 : q ≤ hi := hbd.2
    show max lo (min hi q) = q
    rw [min_eq_right hb2, max_eq_right hb1]
  | otherTy => simp [isValueB, isArith] at h

lemma cast_valid {T : CppType} (q : ℚ) (hw : wfB T = true)
    (hA : isArith T = true) : isValueB T (cppCast T q) = true := by
  cases T with
  | intTy s b =>
    have hbd := intWrap_bounds s b (ratTrunc q)
    refine isValue_int s b _ (Rat.den_intCast _) ?_ ?_
    · show (typeLowestZ s b : ℚ) ≤ ((intWrap s b (ratTrunc q) : ℤ) : ℚ)
      exact_mod_cast hbd.1
    · show ((intWrap s b (ratTrunc q) : ℤ) : ℚ) ≤ (typeMaxZ s b : ℚ)
      exact_mod_cast hbd.2
  | fpTy lo hi =>
    have hlh : lo ≤ hi := by simpa [wfB] using hw
    simp only [isValueB, isArith, isIntegral, typeLowest, typeMax, cppCast,
      Bool.true_and, Bool.not_false, Bool.true_or, Bool.and_eq_true,
      decide_eq_true_eq]
    exact ⟨le_max_left _ _, max_le hlh (min_le_left _ _)⟩
  | otherTy => simp [isArith] at hA

lemma cast_fixed_range {T : CppType} {q : ℚ} (hw : wfB T = true)
    (hA : isArith T = true) (h : cppCast T q = q) :
    typeLowest T ≤ q ∧ q ≤ typeMax T := by
  have h2 := cast_valid (T := T) q hw hA
  rw [h] at h2
  exact isValue_bounds h2

lemma cast_fp_mono (lo hi : ℚ) {p q : ℚ} (h : p ≤ q) :
    cppCast (fpTy lo hi) p ≤ cppCast (fpTy lo hi) q := by
  show max lo (min hi p) ≤ max lo (min hi q)
  exact max_le_max le_rfl (min_le_min le_rfl h)

lemma clampC_cases (v lo hi : ℚ) :
    clampC v lo hi = lo ∨ clampC v lo hi = hi ∨ clampC v lo hi = v := by
  unfold clampC; split_ifs <;> simp

lemma clampC_mem (v : ℚ) {lo hi : ℚ} (h : lo ≤ hi) :
    lo ≤ clampC v lo hi ∧ clampC v lo hi ≤ hi := by
  unfold clampC; split_ifs with h1 h2
  · exact ⟨le_refl lo, h⟩
  · exact ⟨h, le_refl hi⟩
  · exact ⟨not_lt.mp h1, not_lt.mp h2⟩

lemma clampC_eq_self {v lo hi : ℚ} (h1 : lo ≤ v) (h2 : v ≤ hi) :
    clampC v lo hi = v := by
  unfold clampC; rw [if_neg (not_lt.mpr h1), if_neg (not_lt.mpr h2)]

lemma clampC_eq_hi {v lo hi : ℚ} (h : hi ≤ v) (hlh : lo ≤ hi) :
    clampC v lo hi = hi := by
  unfold clampC; split_ifs with h1 h2
  · linarith
  · rfl
  · exact le_antisymm (not_lt.mp h2) h

lemma clampC_eq_lo {v lo hi : ℚ} (h : v ≤ lo) (hlh : lo ≤ hi) :
    clampC v lo hi = lo := by
  unfold clampC; split_ifs with h1 h2
  · rfl
  · linarith
  · exact le_antisymm h (not_lt.mp h1)

lemma allowed_int {T U : CppType} (h : setAllowed T U = true)
    (hT : isIntegral T = true) : isIntegral U = true := by
  cases T <;> cases U <;>
    simp_all [setAllowed, SameNumericType, isIntegral, isFloating]

lemma promote_signed (w : ℕ) : ∃ w2, promote (intTy true w) = intTy true w2 := by
  simp only [promote]; split_ifs <;> exact ⟨_, rfl⟩

lemma cppLE_exact_int (A : CppType) (a : ℚ) (B : CppType) (b : ℚ)
    (hA : signedIntB A = true) (hB : signedIntB B = true) :
    cppLE A a B b = decide (a ≤ b) := by
  cases A with
  | intTy sa wa =>
    have hsa : sa = true := by simpa [signedIntB] using hA
    subst hsa
    obtain ⟨wa2, ha2⟩ := promote_signed wa
    cases B with
    | intTy sb wb =>
      have hsb : sb = true := by simpa [signedIntB] using hB
      subst hsb
      obtain ⟨wb2, hb2⟩ := promote_signed wb
      simp [cppLE, ha2, hb2, cppLEcore]
    | fpTy lo hi => simp [signedIntB] at hB
    | otherTy => simp [signedIntB] at hB
  | fpTy lo hi => simp [signedIntB] at hA
  | otherTy => simp [signedIntB] at hA


lemma setVal_pos {U : CppType} {mn mx : TypedVal}
    (h : CanContainBounds U mn mx = true) (T : CppType) (v : ℚ) :
    setVal T mn mx U v =
      cppCast T (clampC v (cppCast U mn.val) (cppCast U mx.val)) := by
  simp [setVal, h]

lemma setVal_neg {U : CppType} {mn mx : TypedVal}
    (h : CanContainBounds U mn mx = false) (T : CppType) (v : ℚ) :
    setVal T mn mx U v =
      clampC (cppCast T v) (cppCast T mn.val) (cppCast T mx.val) := by
  simp [setVal, h]

lemma cast_int_trunc_eq (sg : Bool) (bb : ℕ) (hb : 0 < bb) {x : ℚ}
    (hlo : typeLowest (intTy sg bb) ≤ x) (hhi : x ≤ typeMax (intTy sg bb)) :
    cppCast (intTy sg bb) x = ((ratTrunc x : ℤ) : ℚ) := by
  show ((intWrap sg bb (ratTrunc x) : ℤ) : ℚ) = _
  congr 1
  apply intWrap_eq_self sg bb _ hb
  · have h2 := ratTrunc_mono hlo
    rwa [typeLowest_int, ratTrunc_intCast] at h2
  · have h2 := ratTrunc_mono hhi
    rwa [typeMax_int, ratTrunc_intCast] at h2

lemma trunc_le_of_den_one {x s : ℚ} (hd : s.den = 1) (h : x ≤ s) :
    ((ratTrunc x : ℤ) : ℚ) ≤ s := by
  have h2 := ratTrunc_mono h
  rw [ratTrunc_den_one hd] at h2
  calc ((ratTrunc x : ℤ) : ℚ) ≤ (s.num : ℚ) := by exact_mod_cast h2
    _ = s := den_one_eq_num hd

lemma le_trunc_of_den_one {x s : ℚ} (hd : s.den = 1) (h : s ≤ x) :
    s ≤ ((ratTrunc x : ℤ) : ℚ) := by
  have h2 := ratTrunc_mono h
  rw [ratTrunc_den_one hd] at h2
  calc s = (s.num : ℚ) := (den_one_eq_num hd).symm
    _ ≤ ((ratTrunc x : ℤ) : ℚ) := by exact_mod_cast h2

/-! ### Claim theorems -/

/-- C1 (code bug): the permanent invariant Min ≤ value ≤ Max fails.
BoundedNumber of double with bounds Min = -100.5 and Max = -0.5 (double
constants) passes CanContainBounds and accepts construction from int 0;
set clamps in int's domain with the bounds truncated to [-100, 0] and
stores 0.0, which exceeds Max = -0.5. -/
theorem set_breaks_invariant :
    CanContainBounds cDouble fracLo fracHi = true ∧
    setAllowed cDouble cInt = true ∧
    isValueB cInt 0 = true ∧
    (BoundedNumber.make cDouble fracLo fracHi cInt 0).value = 0 ∧
    fracHi.val < (BoundedNumber.make cDouble fracLo fracHi cInt 0).value := by
  decide

/-- C2: set follows exactly the claimed precedence: when the input type U
itself satisfies CanContainBounds for the bounds, the input is clamped to
the bounds expressed as U values and only then converted to Storage;
otherwise the input is converted to Storage first and clamped with the
bounds expressed as Storage values. -/
theorem set_clamp_precedence (T : CppType) (mn mx : TypedVal) (U : CppType)
    (v : ℚ) :
    (CanContainBounds U mn mx = true →
      setVal T mn mx U v =
        cppCast T (clampC v (cppCast U mn.val) (cppCast U mx.val))) ∧
    (CanContainBounds U mn mx = false →
      setVal T mn mx U v =
        clampC (cppCast T v) (cppCast T mn.val) (cppCast T mx.val)) :=
  ⟨fun h => setVal_pos h T v, fun h => setVal_neg h T v⟩

/-- Witness for set_clamp_precedence: the dBn alias takes the clamp-in-U
branch for an unsigned long long input. -/
theorem set_clamp_precedence_app :
    setVal cInt dbnLo dbnHi cULongLong (typeMax cULongLong) = 1000 := by
  have h := (set_clamp_precedence cInt dbnLo dbnHi cULongLong
    (typeMax cULongLong)).1 (by decide)
  rw [h]; decide

/-- C5: set (and thus construction) accepts an input type U exactly when U
is in the same numeric category as the storage type, or U is integral
while the storage type is floating-point; in particular a floating-point
input into an integral-backed instantiation is rejected. In the source
this gate is the requires-clause of set, a compile-time constraint. -/
theorem set_accepted_categories (T U : CppType) :
    (setAllowed T U = true ↔
      (SameNumericType T U = true ∨
        (isFloating T = true ∧ isIntegral U = true))) ∧
    (isFloating U = true → isIntegral T = true → setAllowed T U = false) := by
  constructor
  · simp [setAllowed, Bool.or_eq_true, Bool.and_eq_true]
  · intro h1 h2
    cases T <;> cases U <;>
      simp_all [setAllowed, SameNumericType, isFloating, isIntegral]

/-- Witness for set_accepted_categories: double into int is rejected, int
into double is accepted. -/
theorem set_accepted_categories_app :
    setAllowed cInt cDouble = false ∧ setAllowed cDouble cInt = true :=
  ⟨(set_accepted_categories cInt cDouble).2 (by decide) (by decide),
    (set_accepted_categories cDouble cInt).1.mpr (Or.inr ⟨by decide, by decide⟩)⟩

/-- C6 counterexample: CanContainBounds is not equivalent to the spec's
exact-comparison conditions. For T = unsigned int with bounds Min = -1 and
Max = 10 (both int constants) the concept holds, because the comparison
lowest() <= Min converts -1 to unsigned int and wraps it to 4294967295;
but the exact condition, T's lowest value 0 being at most -1, is false. -/
theorem CanContainBounds_vs_spec_cex :
    CanContainBounds cUInt ⟨cInt, -1⟩ ⟨cInt, 10⟩ = true ∧
    canRepresentBoundsSpec cUInt ⟨cInt, -1⟩ ⟨cInt, 10⟩ = false := by decide

/-- C6 amended: when the storage type and the two bound types are all
signed integral types — the fragment on which every comparison in the
concept is value-preserving in C++ — CanContainBounds agrees exactly
with the spec's conjunction: T arithmetic, max() at least Max, lowest()
at most Min, and Min at most Max, all with exact comparisons; the
degenerate case Min = Max and bounds at T's own extremes are accepted by
the non-strict comparisons. Outside this fragment the equivalence can
fail in C++ two ways: a comparison mixing a signed operand with an
unsigned type wraps negative values (the counterexample above), and a
comparison involving a floating-point operand converts the integral side
with rounding, which can also flip a verdict and is not modeled by this
embedding. -/
theorem CanContainBounds_eq_spec (T : CppType) (mn mx : TypedVal)
    (h1 : signedIntB T = true) (h2 : signedIntB mn.ty = true)
    (h3 : signedIntB mx.ty = true) :
    CanContainBounds T mn mx = canRepresentBoundsSpec T mn mx := by
  unfold CanContainBounds canRepresentBoundsSpec
  rw [cppLE_exact_int mx.ty mx.val T (typeMax T) h3 h1,
    cppLE_exact_int T (typeLowest T) mn.ty mn.val h1 h2,
    cppLE_exact_int mn.ty mn.val mx.ty mx.val h2 h3]

/-- Witness for CanContainBounds_eq_spec: at dBn's instantiation the
concept and the exact conditions agree, and a degenerate single-point
interval is accepted. -/
theorem CanContainBounds_eq_spec_app :
    CanContainBounds cInt dbnLo dbnHi = canRepresentBoundsSpec cInt dbnLo dbnHi ∧
    CanContainBounds cInt ⟨cInt, 5⟩ ⟨cInt, 5⟩ = true := by
  refine ⟨CanContainBounds_eq_spec cInt dbnLo dbnHi (by decide) (by decide)
    (by decide), ?_⟩
  rw [CanContainBounds_eq_spec cInt ⟨cInt, 5⟩ ⟨cInt, 5⟩ (by decide) (by decide)
    (by decide)]
  decide

/-- C7: SameNumericType holds exactly when both types are integral or both
are floating-point; a mixed integral/floating pair is never in the same
category. -/
theorem SameNumericType_characterization (T U : CppType) :
    (SameNumericType T U = true ↔
      ((isIntegral T = true ∧ isIntegral U = true) ∨
        (isFloating T = true ∧ isFloating U = true))) ∧
    (isIntegral T = true → isFloating U = true → SameNumericType T U = false) := by
  constructor
  · simp [SameNumericType, Bool.or_eq_true, Bool.and_eq_true]
  · intro h1 h2
    cases T <;> cases U <;>
      simp_all [SameNumericType, isIntegral, isFloating]

/-- Witness for SameNumericType_characterization. -/
theorem SameNumericType_characterization_app :
    SameNumericType cInt cLongLong = true ∧ SameNumericType cInt cDouble = false :=
  ⟨(SameNumericType_characterization cInt cLongLong).1.mpr
      (Or.inl ⟨by decide, by decide⟩),
    (SameNumericType_characterization cInt cDouble).2 (by decide) (by decide)⟩

/-- C8: the literal suffix applied to an unsigned integer literal n (any
value an unsigned long long literal can hold) produces exactly the value
of constructing the dBn alias from n, and that value is n clamped to
[0, 1000]; in-range and out-of-range literals both succeed. (That a
fractional literal fails to compile is a fact of C++ literal dispatch on
the unsigned long long parameter, outside the value model.) -/
theorem literal_dbn_clamps (n : ℕ) (_h : n ≤ 18446744073709551615) :
    literalDbn n = BoundedNumber.make cInt dbnLo dbnHi cULongLong (n : ℚ) ∧
    (literalDbn n).value = clampC (n : ℚ) 0 1000 := by
  refine ⟨rfl, ?_⟩
  show setVal cInt dbnLo dbnHi cULongLong (n : ℚ) = clampC (n : ℚ) 0 1000
  have hcc : CanContainBounds cULongLong dbnLo dbnHi = true := by decide
  have e1 : cppCast cULongLong dbnLo.val = 0 := by decide
  have e2 : cppCast cULongLong dbnHi.val = 1000 := by decide
  rw [setVal_pos hcc, e1, e2]
  have hden : (clampC (n : ℚ) 0 1000).den = 1 := by
    rcases clampC_cases (n : ℚ) 0 1000 with hc | hc | hc <;> rw [hc]
    · decide
    · decide
    · exact Rat.den_natCast n
  have hcl := clampC_mem (n : ℚ) (by norm_num : (0:ℚ) ≤ 1000)
  apply cast_int_eq_self true 32 _ (by norm_num) hden
  · have hz : typeLowest (intTy true 32) ≤ 0 := by decide
    linarith [hcl.1]
  · have hz : (1000:ℚ) ≤ typeMax (intTy true 32) := by decide
    linarith [hcl.2]

/-- Witness for literal_dbn_clamps: the literal 10 builds the value 10,
matching the static_assert in the source. -/
theorem literal_dbn_clamps_app : (literalDbn 10).value = 10 := by
  have h := (literal_dbn_clamps 10 (by decide)).2
  rw [h]; decide


/-- C3: for an accepted input type U that itself satisfies CanContainBounds
(as a strictly wider type does whenever the bounds are exactly
representable in it), assigning U's largest representable value stores
exactly Max and assigning U's lowest stores exactly Min; in particular
the dBn alias stores 1000 from the largest unsigned long long and 0 from
the lowest long long, and the dB alias stores 0 from the largest long
double and -100 from the lowest long double. -/
theorem set_saturation_at_extremes :
    (∀ (T U : CppType) (mn mx : TypedVal),
      CanContainBounds U mn mx = true → wfB U = true → isArith U = true →
      cppCast U mn.val = mn.val → cppCast U mx.val = mx.val →
      cppCast T mn.val = mn.val → cppCast T mx.val = mx.val →
      mn.val ≤ mx.val →
      setVal T mn mx U (typeMax U) = mx.val ∧
      setVal T mn mx U (typeLowest U) = mn.val) ∧
    setVal cInt dbnLo dbnHi cULongLong (typeMax cULongLong) = 1000 ∧
    setVal cInt dbnLo dbnHi cLongLong (typeLowest cLongLong) = 0 ∧
    setVal cDouble dbLo dbHi cLongDouble (typeMax cLongDouble) = 0 ∧
    setVal cDouble dbLo dbHi cLongDouble (typeLowest cLongDouble) = -100 := by
  refine ⟨?_, by decide, by decide, by decide, by decide⟩
  intro T U mn mx hcc hwU hAU hU1 hU2 hT1 hT2 hmm2
  have hr1 := cast_fixed_range hwU hAU hU1
  have hr2 := cast_fixed_range hwU hAU hU2
  constructor
  · rw [setVal_pos hcc, hU1, hU2, clampC_eq_hi hr2.2 hmm2, hT2]
  · rw [setVal_pos hcc, hU1, hU2, clampC_eq_lo hr1.1 hmm2, hT1]

/-- Witness for set_saturation_at_extremes: the dBn alias saturates at
both long long extremes. -/
theorem set_saturation_at_extremes_app :
    setVal cInt dbnLo dbnHi cLongLong (typeMax cLongLong) = 1000 ∧
    setVal cInt dbnLo dbnHi cLongLong (typeLowest cLongLong) = 0 := by
  have h := set_saturation_at_extremes.1 cInt cLongLong dbnLo dbnHi
    (by decide) (by decide) (by decide) (by decide) (by decide) (by decide)
    (by decide) (by decide)
  constructor
  · rw [h.1]; decide
  · rw [h.2]; decide

/-- C4 counterexample: with the dBn bounds [0, 1000] and input type long
long, the accepted value 4294967301 converts to int as 5 (modulo 2 to the
32), which lies inside [0, 1000]; the claim as stated then demands the
stored value 5, but set clamps in long long's domain and stores 1000. -/
theorem set_identity_cex :
    setAllowed cInt cLongLong = true ∧
    isValueB cLongLong 4294967301 = true ∧
    cppCast cInt 4294967301 = 5 ∧
    dbnLo.val ≤ 5 ∧ (5 : ℚ) ≤ dbnHi.val ∧
    setVal cInt dbnLo dbnHi cLongLong 4294967301 = 1000 := by decide

/-- C4 amended: for every accepted input value v that itself lies within
[Min, Max] (rather than merely wrapping into the interval during the
conversion to Storage), with the bounds exactly representable in Storage
and, when the clamp runs in U's domain, in U, the stored value is exactly
v converted to Storage; in particular assigning exactly Min or exactly
Max stores that bound. -/
theorem set_identity_in_range (T : CppType) (mn mx : TypedVal) (U : CppType)
    (v : ℚ) (hwT : wfB T = true) (hAT : isArith T = true)
    (hall : setAllowed T U = true) (hv : isValueB U v = true)
    (h1 : mn.val ≤ v) (h2 : v ≤ mx.val)
    (hT1 : cppCast T mn.val = mn.val) (hT2 : cppCast T mx.val = mx.val)
    (hU : CanContainBounds U mn mx = true →
      cppCast U mn.val = mn.val ∧ cppCast U mx.val = mx.val) :
    setVal T mn mx U v = cppCast T v := by
  cases hcc : CanContainBounds U mn mx with
  | true =>
    obtain ⟨e1, e2⟩ := hU hcc
    rw [setVal_pos hcc, e1, e2, clampC_eq_self h1 h2]
  | false =>
    rw [setVal_neg hcc, hT1, hT2]
    have hb : mn.val ≤ cppCast T v ∧ cppCast T v ≤ mx.val := by
      cases T with
      | intTy s b =>
        have hUi : isIntegral U = true := allowed_int hall (by simp [isIntegral])
        have hd : v.den = 1 := isValue_den hv hUi
        have hrl := cast_fixed_range hwT hAT hT1
        have hru := cast_fixed_range hwT hAT hT2
        have e : cppCast (intTy s b) v = v := by
          apply cast_int_eq_self s b v (by simpa [wfB] using hwT) hd
          · exact le_trans hrl.1 h1
          · exact le_trans h2 hru.2
        rw [e]; exact ⟨h1, h2⟩
      | fpTy lo hi =>
        constructor
        · calc mn.val = cppCast (fpTy lo hi) mn.val := hT1.symm
            _ ≤ cppCast (fpTy lo hi) v := cast_fp_mono lo hi h1
        · calc cppCast (fpTy lo hi) v ≤ cppCast (fpTy lo hi) mx.val :=
              cast_fp_mono lo hi h2
            _ = mx.val := hT2
      | otherTy => simp [isArith] at hAT
    exact clampC_eq_self hb.1 hb.2

/-- Witness for set_identity_in_range: dB stores -10.5 exactly, matching
the static_assert in the source. -/
theorem set_identity_in_range_app :
    setVal cDouble dbLo dbHi cDouble fracIn = fracIn := by
  have h := set_identity_in_range cDouble dbLo dbHi cDouble fracIn
    (by decide) (by decide) (by decide) (by decide) (by decide) (by decide)
    (by decide) (by decide) (fun _ => ⟨by decide, by decide⟩)
  rw [h]; decide

/-- C10: set is idempotent on stored values. For a legal instantiation
whose bounds are representable in Storage, and an instance whose current
value is a Storage value inside [Min, Max] (as the claim states of
value()), re-setting the instance to its own value leaves it unchanged,
and constructing a new instance from it yields the same value. -/
theorem set_idempotent_on_value (T : CppType) (mn mx : TypedVal)
    (hw : wfB T = true) (hcc : CanContainBounds T mn mx = true)
    (hl : typeLowest T ≤ mn.val) (hu : mx.val ≤ typeMax T)
    (s : ℚ) (hs : isValueB T s = true) (h1 : mn.val ≤ s) (h2 : s ≤ mx.val)
    (b : BoundedNumber T mn mx) :
    (b.setB T s).value = s ∧ (BoundedNumber.make T mn mx T s).value = s := by
  have hmm2 : mn.val ≤ mx.val := le_trans h1 h2
  have key : setVal T mn mx T s = s := by
    rw [setVal_pos hcc]
    have hfix : cppCast T s = s := cast_fixed hw hs
    have hcl : clampC s (cppCast T mn.val) (cppCast T mx.val) = s := by
      apply clampC_eq_self
      · cases T with
        | intTy sg bb =>
          have hb : 0 < bb := by simpa [wfB] using hw
          have hd : s.den = 1 := isValue_den hs (by simp [isIntegral])
          rw [cast_int_trunc_eq sg bb hb hl (le_trans hmm2 hu)]
          exact trunc_le_of_den_one hd h1
        | fpTy lo hi =>
          calc cppCast (fpTy lo hi) mn.val ≤ cppCast (fpTy lo hi) s :=
              cast_fp_mono lo hi h1
            _ = s := hfix
        | otherTy => simp [CanContainBounds, isArith] at hcc
      · cases T with
        | intTy sg bb =>
          have hb : 0 < bb := by simpa [wfB] using hw
          have hd : s.den = 1 := isValue_den hs (by simp [isIntegral])
          rw [cast_int_trunc_eq sg bb hb (le_trans hl hmm2) hu]
          exact le_trunc_of_den_one hd h2
        | fpTy lo hi =>
          calc s = cppCast (fpTy lo hi) s := hfix.symm
            _ ≤ cppCast (fpTy lo hi) mx.val := cast_fp_mono lo hi h2
        | otherTy => simp [CanContainBounds, isArith] at hcc
    rw [hcl, hfix]
  exact ⟨key, key⟩

/-- Witness for set_idempotent_on_value at a dBn instance holding 10. -/
theorem set_idempotent_on_value_app :
    ((BoundedNumber.make cInt dbnLo dbnHi cInt 10).setB cInt 10).value = 10 :=
  (set_idempotent_on_value cInt dbnLo dbnHi (by decide) (by decide) (by decide)
    (by decide) 10 (by decide) (by decide) (by decide)
    (BoundedNumber.make cInt dbnLo dbnHi cInt 10)).1


end BNModel
